import Mathlib

set_option maxHeartbeats 1000000
set_option maxRecDepth 100000

namespace RouteOpt

/-- Coordinates as in the `Location` interface of `src/src/types/index.ts`
(latitude / longitude as numbers, modelled as rationals). -/
structure Location where
  lat : ℚ
  lng : ℚ
  deriving DecidableEq

/-- The `Warehouse` interface of `src/src/types/index.ts`. -/
structure Warehouse where
  id : String
  name : String
  location : Location
  capacity : ℚ
  address : String
  deriving DecidableEq

/-- The `Store` interface of `src/src/types/index.ts`; the optional
`timeWindow` is a pair (start, end) when present. -/
structure Store where
  id : String
  name : String
  location : Location
  demand : ℚ
  address : String
  timeWindow : Option (String × String)
  deriving DecidableEq

/-- The `Truck` interface of `src/src/types/index.ts`. -/
structure Truck where
  id : String
  name : String
  capacity : ℚ
  speed : ℚ
  warehouseId : String
  deriving DecidableEq

/-- A JavaScript number that can be the result of a division: either a
finite rational, one of the two infinities, or NaN.  Division by zero in
JavaScript does not throw; it produces `Infinity`, `-Infinity` or `NaN`. -/
inductive JNum where
  | fin (q : ℚ)
  | inf
  | negInf
  | nan
  deriving DecidableEq

/-- JavaScript division `a / b` on numbers (for finite operands):
finite quotient when `b ≠ 0`, otherwise `Infinity` / `-Infinity` / `NaN`
depending on the sign of `a`. -/
def jsDiv (a b : ℚ) : JNum :=
  if b ≠ 0 then .fin (a / b)
  else if 0 < a then .inf
  else if a < 0 then .negInf
  else .nan

/-- `parseFloat(x.toFixed(2))` on a finite nonnegative value: round to the
nearest multiple of 1/100 (ties away from zero for the nonnegative values
arising here). -/
def round2 (q : ℚ) : ℚ := (round (q * 100) : ℚ) / 100

/-- `parseFloat(x.toFixed(2))` on a JavaScript number: rounds a finite value,
and maps `Infinity`/`NaN` to themselves (`toFixed` prints them verbatim and
`parseFloat` reads them back). -/
def jround2 : JNum → JNum
  | .fin q => .fin (round2 q)
  | x => x

/-- The `Route` interface of `src/src/types/index.ts`.  `distance` is always a
finite number (a sum of distance values), `estimatedTime` is a JavaScript
number because it is produced by a division. -/
structure Route where
  id : String
  warehouseId : String
  truckId : String
  stores : List String
  distance : ℚ
  estimatedTime : JNum
  created : String
  deriving DecidableEq

/-- A `Partial<Route>` argument as used by `updateRoute` in
`src/src/store/dataStore.ts`: each field may or may not be present. -/
structure RoutePatch where
  id : Option String
  warehouseId : Option String
  truckId : Option String
  stores : Option (List String)
  distance : Option ℚ
  estimatedTime : Option JNum
  created : Option String
  deriving DecidableEq

/-- The patch with no fields present. -/
def emptyPatch : RoutePatch := ⟨none, none, none, none, none, none, none⟩

/-- The object spread `{ ...route, ...data }` used by `updateRoute`:
every field present in the patch overrides the route's field. -/
def applyPatch (r : Route) (p : RoutePatch) : Route :=
  { id := p.id.getD r.id
    warehouseId := p.warehouseId.getD r.warehouseId
    truckId := p.truckId.getD r.truckId
    stores := p.stores.getD r.stores
    distance := p.distance.getD r.distance
    estimatedTime := p.estimatedTime.getD r.estimatedTime
    created := p.created.getD r.created }

/-- The state held by the zustand store in `src/src/store/dataStore.ts`:
the four collections. -/
structure DataState where
  warehouses : List Warehouse
  stores : List Store
  trucks : List Truck
  routes : List Route
  deriving DecidableEq

/-- `addRoute` (lines 185-193 of `dataStore.ts`): appends the given route
with a freshly generated identifier (`{ ...route, id }`; the fresh
identifier is passed in explicitly here in place of `Math.random()`). -/
def addRoute (st : DataState) (newId : String) (r : Route) : DataState :=
  { st with routes := st.routes ++ [{ r with id := newId }] }

/-- `updateRoute` (lines 195-201 of `dataStore.ts`): maps over the routes,
spreading the patch onto every route whose id matches. -/
def updateRoute (st : DataState) (rid : String) (p : RoutePatch) : DataState :=
  { st with routes := st.routes.map (fun r => if r.id = rid then applyPatch r p else r) }

/-- `deleteRoute` (lines 203-207 of `dataStore.ts`): keeps the routes whose
id differs from the argument. -/
def deleteRoute (st : DataState) (rid : String) : DataState :=
  { st with routes := st.routes.filter (fun r => r.id ≠ rid) }

/-- `deleteWarehouse` (lines 128-132 of `dataStore.ts`): filters only the
warehouse collection; trucks and routes are untouched. -/
def deleteWarehouse (st : DataState) (wid : String) : DataState :=
  { st with warehouses := st.warehouses.filter (fun w => w.id ≠ wid) }

/- ## The route generation engine (`generateRoutes`, lines 210-310 of
`src/src/store/dataStore.ts`).

The inner `calculateDistance` (haversine, lines 227-237) is a pure function
of two coordinates computed with floating-point trigonometry; it is modelled
throughout as an abstract parameter `dist : Location → Location → ℚ`, since
every property of the engine below is independent of its actual values.
`Math.random()` identifiers and `new Date` timestamps are modelled as an
explicit identifier supply `ids : Nat → String` (the k-th emitted route gets
`ids k`) and an explicit `now : String`. -/

/-- One entry of `storesWithDistance` (lines 240-246): a store paired with
its computed distance from the current warehouse. -/
def storesWithDistance (dist : Location → Location → ℚ) (stores : List Store)
    (w : Warehouse) : List (Store × ℚ) :=
  stores.map (fun s => (s, dist w.location s.location))

/-- Insert into a list sorted ascending by the distance component, placing
the new element before the first strictly farther one (so an element coming
earlier in the input stays before later elements at the same distance). -/
def insertByDist (x : Store × ℚ) : List (Store × ℚ) → List (Store × ℚ)
  | [] => [x]
  | y :: ys => if y.2 < x.2 then y :: insertByDist x ys else x :: y :: ys

/-- `storesWithDistance.sort((a, b) => a.distance - b.distance)` (line 249):
JavaScript `Array.prototype.sort` is a stable ascending sort, realised here
as a stable insertion sort. -/
def sortByDist : List (Store × ℚ) → List (Store × ℚ)
  | [] => []
  | x :: xs => insertByDist x (sortByDist xs)

/-- The per-depot sorted destination list (lines 240-249). -/
def depotSorted (dist : Location → Location → ℚ) (stores : List Store)
    (w : Warehouse) : List (Store × ℚ) :=
  sortByDist (storesWithDistance dist stores w)

/-- `trucks.filter(t => t.warehouseId === warehouse.id)` (line 222). -/
def depotRoster (trucks : List Truck) (w : Warehouse) : List Truck :=
  trucks.filter (fun t => t.warehouseId = w.id)

/-- The `truckAssignments` JavaScript object (lines 252-262), as an
association list in key insertion order (`Object.entries` enumerates
non-integer-like string keys in insertion order). -/
abbrev Assignments := List (String × List String)

/-- `truckAssignments[k] = v`: overwrite the value at the key when present
(JavaScript object keys are unique, so at most one binding matches), append
the binding otherwise. -/
def recordSet : Assignments → String → List String → Assignments
  | [], k, v => [(k, v)]
  | p :: rest, k, v => if p.1 = k then (k, v) :: rest else p :: recordSet rest k v

/-- `truckAssignments[k].push(x)`: append `x` to the value at key `k`.
When the key is absent this is a no-op (the source would fault there; the
keys pushed to are always present, see `initAssignments`). -/
def recordPush : Assignments → String → String → Assignments
  | [], _, _ => []
  | p :: rest, k, x => if p.1 = k then (p.1, p.2 ++ [x]) :: rest else p :: recordPush rest k x

/-- Lookup in the record. -/
def recordGet (a : Assignments) (k : String) : Option (List String) :=
  (a.find? (fun p => p.1 = k)).map (fun p => p.2)

/-- `warehouseTrucks.forEach(truck => truckAssignments[truck.id] = [])`
(lines 253-255). -/
def initAssignments (roster : List Truck) : Assignments :=
  roster.foldl (fun a t => recordSet a t.id []) []

/-- The body of `storesWithDistance.forEach((store, index) => ...)`
(lines 258-262), with the running index made explicit: the store at index
`i` is pushed onto the assignment list of the truck whose id is `keyOf i`. -/
def distributeFrom (keyOf : Nat → String) : Nat → List (Store × ℚ) → Assignments → Assignments
  | _, [], a => a
  | i, s :: rest, a => distributeFrom keyOf (i + 1) rest (recordPush a (keyOf i) s.1.id)

/-- `warehouseTrucks[index % warehouseTrucks.length].id` (lines 259-260);
`t0` is an arbitrary default, never used because the index is in bounds. -/
def rosterKey (roster : List Truck) (t0 : Truck) (i : Nat) : String :=
  (roster.getD (i % roster.length) t0).id

/-- The completed `truckAssignments` record for one warehouse
(lines 252-262). -/
def depotAssignments (dist : Location → Location → ℚ) (stores : List Store)
    (trucks : List Truck) (w : Warehouse) (t0 : Truck) : Assignments :=
  distributeFrom (rosterKey (depotRoster trucks w) t0) 0
    (depotSorted dist stores w) (initAssignments (depotRoster trucks w))

/-- A produced route before the identifier and timestamp are attached. -/
structure RouteCore where
  warehouseId : String
  truckId : String
  stores : List String
  distance : ℚ
  estimatedTime : JNum
  deriving DecidableEq

/-- Attach identifier and timestamp (line 294-302). -/
def RouteCore.toRoute (c : RouteCore) (rid now : String) : Route :=
  ⟨rid, c.warehouseId, c.truckId, c.stores, c.distance, c.estimatedTime, now⟩

/-- Resolve a list of store ids to locations by
`stores.find(s => s.id === storeId)` (line 274); ids that resolve to nothing
are skipped (the source asserts with `!` that the lookup succeeds, which is
always the case for the ids the engine itself pushed). -/
def locsOf (stores : List Store) (sids : List String) : List Location :=
  sids.filterMap (fun sid => (stores.find? (fun s => s.id = sid)).map (fun s => s.location))

/-- The `totalDistance` accumulation (lines 269-287): starting at `prev`,
sum the legs through the listed locations and close the tour back at `home`. -/
def tourFrom (dist : Location → Location → ℚ) (home : Location) : Location → List Location → ℚ
  | prev, [] => dist prev home
  | prev, l :: ls => dist prev l + tourFrom dist home l ls

/-- The unrounded total distance of the route of one truck: warehouse →
resolved stores in assignment order → warehouse. -/
def tourOf (dist : Location → Location → ℚ) (stores : List Store) (w : Warehouse)
    (sids : List String) : ℚ :=
  tourFrom dist w.location w.location (locsOf stores sids)

/-- The body of `Object.entries(truckAssignments).forEach` (lines 265-302):
skip empty assignments, look the truck up in the global truck list
(line 290), and build the route record with rounded distance and
estimated time. -/
def emitRoute (dist : Location → Location → ℚ) (stores : List Store)
    (trucks : List Truck) (w : Warehouse) (e : String × List String) : Option RouteCore :=
  if e.2.isEmpty then none
  else
    match trucks.find? (fun t => t.id = e.1) with
    | none => none
    | some truck =>
      some { warehouseId := w.id
             truckId := e.1
             stores := e.2
             distance := round2 (tourOf dist stores w e.2)
             estimatedTime := jround2 (jsDiv (tourOf dist stores w e.2) truck.speed) }

/-- The whole per-warehouse body of `warehouses.forEach` (lines 220-308):
nothing for a warehouse with no trucks, otherwise the routes emitted from
the filled `truckAssignments` record, in `Object.entries` order. -/
def processWarehouse (dist : Location → Location → ℚ) (stores : List Store)
    (trucks : List Truck) (w : Warehouse) : List RouteCore :=
  match depotRoster trucks w with
  | [] => []
  | t0 :: _ =>
    (depotAssignments dist stores trucks w t0).filterMap (emitRoute dist stores trucks w)

/-- All route cores of a generation cycle, in emission order. -/
def genRoutesCore (dist : Location → Location → ℚ) (warehouses : List Warehouse)
    (stores : List Store) (trucks : List Truck) : List RouteCore :=
  warehouses.flatMap (processWarehouse dist stores trucks)

/-- Attach the k-th fresh identifier to the k-th core, with index origin `k0`. -/
def attachIds (ids : Nat → String) (now : String) : Nat → List RouteCore → List Route
  | _, [] => []
  | k0, c :: cs => c.toRoute (ids k0) now :: attachIds ids now (k0 + 1) cs

/-- `generateRoutes` (lines 210-310): clear the route collection, then for
each warehouse in order distribute all stores over its trucks and append the
emitted routes.  The final route list is the concatenation of the emitted
routes with fresh identifiers and the current timestamp attached. -/
def generateRoutes (dist : Location → Location → ℚ) (st : DataState)
    (ids : Nat → String) (now : String) : DataState :=
  { st with routes := attachIds ids now 0 (genRoutesCore dist st.warehouses st.stores st.trucks) }

/- ## Specification-side definitions -/

/-- Pair every element of a list with its index, starting at `i`
(the index seen by `forEach((x, index) => ...)` when `i = 0`). -/
def withIdx : Nat → List α → List (Nat × α)
  | _, [] => []
  | i, x :: xs => (i, x) :: withIdx (i + 1) xs

/-- Sum of the distances of the consecutive legs of a path given as the full
list of visited points. -/
def legSum (dist : Location → Location → ℚ) : List Location → ℚ
  | a :: b :: rest => dist a b + legSum dist (b :: rest)
  | _ => 0

/-- The identifier- and timestamp-free part of a route (everything the
generation algorithm determines). -/
def Route.core (r : Route) : RouteCore :=
  ⟨r.warehouseId, r.truckId, r.stores, r.distance, r.estimatedTime⟩

/- ## Concrete instances, used below to evaluate the definitions. -/

/-- A concrete stand-in for the haversine distance (any function of two
coordinates works; squared euclidean keeps the arithmetic exact). -/
def distEx (a b : Location) : ℚ :=
  (a.lat - b.lat) * (a.lat - b.lat) + (a.lng - b.lng) * (a.lng - b.lng)

/-- A concrete identifier supply. -/
def idsEx (k : Nat) : String := "r" ++ toString k

def wEx1 : Warehouse := ⟨"w1", "Central", ⟨0, 0⟩, 1000, "a1"⟩

def wEx2 : Warehouse := ⟨"w2", "West", ⟨10, 10⟩, 800, "a2"⟩

def sEx1 : Store := ⟨"s1", "S1", ⟨0, 1⟩, 50, "b1", none⟩

def sEx2 : Store := ⟨"s2", "S2", ⟨0, 2⟩, 30, "b2", some ("08:00", "18:00")⟩

def sEx3 : Store := ⟨"s3", "S3", ⟨0, 3⟩, 40, "b3", none⟩

def tEx1 : Truck := ⟨"t1", "T1", 200, 60, "w1"⟩

def tEx2 : Truck := ⟨"t2", "T2", 150, 55, "w1"⟩

def tEx3 : Truck := ⟨"t3", "T3", 180, 65, "w2"⟩

def rOld : Route := ⟨"old", "w1", "t1", ["s1"], 1, .fin 1, "before"⟩

/-- Two warehouses with trucks, three stores, one pre-existing route. -/
def stEx : DataState :=
  ⟨[wEx1, wEx2], [sEx1, sEx2, sEx3], [tEx1, tEx2, tEx3], [rOld]⟩

/-- One warehouse whose only truck has speed 0. -/
def stZero : DataState :=
  ⟨[wEx1], [sEx1], [⟨"t0", "T0", 100, 0, "w1"⟩], []⟩

def rA : Route := ⟨"a", "w1", "t1", ["s1"], 1, .fin 1, "c1"⟩

def rB : Route := ⟨"b", "w1", "t2", ["s2"], 2, .fin 2, "c2"⟩

/-- A state with two routes with distinct identifiers `a` and `b`. -/
def stAB : DataState := ⟨[], [], [], [rA, rB]⟩

/-- The route `generateRoutes` emits on `stZero`: its truck has speed 0, so
the estimated time is JavaScript `Infinity`. -/
def rZero : Route := ⟨"r0", "w1", "t0", ["s1"], 2, JNum.inf, "now"⟩

/-- The first route `generateRoutes` emits on `stEx` after deleting
warehouse `w2`. -/
def rC10 : Route := ⟨"r0", "w1", "t1", ["s1", "s3"], 14, JNum.fin (23 / 100), "now"⟩

/- ## Lemmas about the stable sort -/

lemma insertByDist_perm (x : Store × ℚ) (l : List (Store × ℚ)) :
    List.Perm (insertByDist x l) (x :: l) := by
  induction l with
  | nil => rfl
  | cons y ys ih =>
    by_cases h : y.2 < x.2
    · simp only [insertByDist, if_pos h]
      exact (ih.cons y).trans (List.Perm.swap x y ys)
    · simp only [insertByDist, if_neg h]
      exact List.Perm.refl _

lemma sortByDist_perm (l : List (Store × ℚ)) : List.Perm (sortByDist l) l := by
  induction l with
  | nil => rfl
  | cons x xs ih => exact (insertByDist_perm x (sortByDist xs)).trans (ih.cons x)

lemma sortByDist_length (l : List (Store × ℚ)) :
    (sortByDist l).length = l.length :=
  (sortByDist_perm l).length_eq

lemma insertByDist_sorted {x : Store × ℚ} {l : List (Store × ℚ)}
    (h : l.Pairwise (fun a b => a.2 ≤ b.2)) :
    (insertByDist x l).Pairwise (fun a b => a.2 ≤ b.2) := by
  induction l with
  | nil => simp [insertByDist]
  | cons y ys ih =>
    rw [List.pairwise_cons] at h
    by_cases hlt : y.2 < x.2
    · simp only [insertByDist, if_pos hlt]
      rw [List.pairwise_cons]
      refine ⟨fun z hz => ?_, ih h.2⟩
      rcases List.mem_cons.mp ((insertByDist_perm x ys).mem_iff.mp hz) with rfl | hzy
      · exact le_of_lt hlt
      · exact h.1 z hzy
    · simp only [insertByDist, if_neg hlt]
      rw [List.pairwise_cons]
      refine ⟨fun z hz => ?_, List.pairwise_cons.mpr h⟩
      rcases List.mem_cons.mp hz with rfl | hzy
      · exact le_of_not_lt hlt
      · exact le_trans (le_of_not_lt hlt) (h.1 z hzy)

lemma sortByDist_sorted (l : List (Store × ℚ)) :
    (sortByDist l).Pairwise (fun a b => a.2 ≤ b.2) := by
  induction l with
  | nil => simp [sortByDist]
  | cons x xs ih => exact insertByDist_sorted ih

lemma insertByDist_filter (x : Store × ℚ) (l : List (Store × ℚ)) (d : ℚ) :
    (insertByDist x l).filter (fun p => p.2 = d)
      = (x :: l).filter (fun p => p.2 = d) := by
  induction l with
  | nil => rfl
  | cons y ys ih =>
    by_cases hlt : y.2 < x.2
    · simp only [insertByDist, if_pos hlt]
      by_cases hx : x.2 = d <;> by_cases hy : y.2 = d
      · exact absurd (hy.trans hx.symm) (ne_of_lt hlt)
      all_goals simp [List.filter_cons, hx, hy, ih]
    · simp only [insertByDist, if_neg hlt]

lemma sortByDist_filter (l : List (Store × ℚ)) (d : ℚ) :
    (sortByDist l).filter (fun p => p.2 = d) = l.filter (fun p => p.2 = d) := by
  induction l with
  | nil => rfl
  | cons x xs ih =>
    rw [sortByDist, insertByDist_filter]
    simp [List.filter_cons, ih]

/- ## Lemmas about the assignment record -/

lemma recordGet_nil (k : String) : recordGet [] k = none := rfl

lemma recordGet_cons (p : String × List String) (a : Assignments) (k : String) :
    recordGet (p :: a) k = if p.1 = k then some p.2 else recordGet a k := by
  by_cases h : p.1 = k <;> simp [recordGet, List.find?_cons, h]

lemma recordGet_recordSet (a : Assignments) (k : String) (v : List String) (k' : String) :
    recordGet (recordSet a k v) k' = if k' = k then some v else recordGet a k' := by
  induction a with
  | nil =>
    by_cases h : k' = k
    · subst h; simp [recordSet, recordGet_cons]
    · have h' : k ≠ k' := fun hh => h hh.symm
      simp [recordSet, recordGet_cons, h, h', recordGet_nil]
  | cons p rest ih =>
    by_cases hk : k' = k
    · subst hk
      by_cases hp : p.1 = k'
      · simp [recordSet, hp, recordGet_cons]
      · simp [recordSet, hp, recordGet_cons, ih]
    · have hk' : k ≠ k' := fun hh => hk hh.symm
      by_cases hp : p.1 = k
      · subst hp
        simp [recordSet, recordGet_cons, hk, hk']
      · by_cases hpk : p.1 = k'
        · simp [recordSet, hp, recordGet_cons, hpk, hk]
        · simp [recordSet, hp, recordGet_cons, hpk, ih, hk]

lemma recordGet_recordPush (a : Assignments) (k : String) (x : String) (k' : String) :
    recordGet (recordPush a k x) k'
      = if k' = k then (recordGet a k).map (fun v => v ++ [x]) else recordGet a k' := by
  induction a with
  | nil =>
    by_cases h : k' = k <;> simp [recordPush, recordGet_nil, h]
  | cons p rest ih =>
    by_cases hk : k' = k
    · subst hk
      by_cases hp : p.1 = k'
      · simp [recordPush, hp, recordGet_cons]
      · simp [recordPush, hp, recordGet_cons, ih]
    · have hk' : k ≠ k' := fun hh => hk hh.symm
      by_cases hp : p.1 = k
      · subst hp
        simp [recordPush, recordGet_cons, hk, hk']
      · by_cases hpk : p.1 = k'
        · simp [recordPush, hp, recordGet_cons, hpk, hk]
        · simp [recordPush, hp, recordGet_cons, hpk, ih, hk]

lemma recordPush_keys (a : Assignments) (k : String) (x : String) :
    (recordPush a k x).map Prod.fst = a.map Prod.fst := by
  induction a with
  | nil => rfl
  | cons p rest ih => by_cases hp : p.1 = k <;> simp [recordPush, hp, ih]

lemma recordSet_keys (a : Assignments) (k : String) (v : List String) :
    (recordSet a k v).map Prod.fst
      = if k ∈ a.map Prod.fst then a.map Prod.fst else a.map Prod.fst ++ [k] := by
  induction a with
  | nil => simp [recordSet]
  | cons p rest ih =>
    by_cases hp : p.1 = k
    · simp [recordSet, hp]
    · by_cases hm : k ∈ rest.map Prod.fst
      · simp [recordSet, hp, ih, hm, Ne.symm hp]
      · simp [recordSet, hp, ih, hm, Ne.symm hp]

lemma recordGet_initFold (roster : List Truck) :
    ∀ (a : Assignments) (k : String),
      recordGet (roster.foldl (fun a t => recordSet a t.id []) a) k
        = if k ∈ roster.map (fun t => t.id) then some [] else recordGet a k := by
  induction roster with
  | nil => intro a k; simp
  | cons t ts ih =>
    intro a k
    rw [List.foldl_cons, ih]
    by_cases hk : k ∈ ts.map (fun t => t.id)
    · simp [hk]
    · by_cases hkt : k = t.id
      · simp [hk, hkt, recordGet_recordSet]
      · simp [hk, hkt, recordGet_recordSet]

lemma recordGet_initAssignments (roster : List Truck) (k : String) :
    recordGet (initAssignments roster) k
      = if k ∈ roster.map (fun t => t.id) then some [] else none := by
  simpa [recordGet_nil] using recordGet_initFold roster [] k

lemma initFold_keys (roster : List Truck) :
    ∀ a : Assignments,
      ((a.map Prod.fst ++ roster.map (fun t => t.id)).Nodup) →
      (roster.foldl (fun a t => recordSet a t.id []) a).map Prod.fst
        = a.map Prod.fst ++ roster.map (fun t => t.id) := by
  induction roster with
  | nil => intro a _; simp
  | cons t ts ih =>
    intro a hnd
    have h1 : t.id ∉ a.map Prod.fst := by
      intro hmem
      rw [List.nodup_append] at hnd
      exact hnd.2.2 hmem (by simp)
    rw [List.foldl_cons]
    have hset : (recordSet a t.id []).map Prod.fst = a.map Prod.fst ++ [t.id] := by
      rw [recordSet_keys, if_neg h1]
    have hnd' : (((recordSet a t.id []).map Prod.fst) ++ ts.map (fun t => t.id)).Nodup := by
      rw [hset, List.append_assoc]
      simpa using hnd
    rw [ih _ hnd', hset, List.append_assoc]
    simp

lemma initAssignments_keys (roster : List Truck)
    (h : (roster.map (fun t => t.id)).Nodup) :
    (initAssignments roster).map Prod.fst = roster.map (fun t => t.id) := by
  simpa [initAssignments] using initFold_keys roster [] (by simpa using h)

lemma recordSet_keys_sub {a : Assignments} {k : String} {v : List String} {q : String}
    (h : q ∈ (recordSet a k v).map Prod.fst) : q ∈ a.map Prod.fst ∨ q = k := by
  rw [recordSet_keys] at h
  by_cases hm : k ∈ a.map Prod.fst
  · rw [if_pos hm] at h; exact Or.inl h
  · rw [if_neg hm] at h
    rcases List.mem_append.mp h with h1 | h2
    · exact Or.inl h1
    · exact Or.inr (by simpa using h2)

lemma initFold_keys_sub (roster : List Truck) :
    ∀ (a : Assignments) (q : String),
      q ∈ (roster.foldl (fun a t => recordSet a t.id []) a).map Prod.fst →
      q ∈ a.map Prod.fst ∨ q ∈ roster.map (fun t => t.id) := by
  induction roster with
  | nil => intro a q h; exact Or.inl h
  | cons t ts ih =>
    intro a q h
    rw [List.foldl_cons] at h
    rcases ih _ q h with h1 | h2
    · rcases recordSet_keys_sub h1 with h3 | h3
      · exact Or.inl h3
      · exact Or.inr (by simp [h3])
    · exact Or.inr (by simp [h2])

lemma distributeFrom_keys (f : Nat → String) :
    ∀ (l : List (Store × ℚ)) (i : Nat) (a : Assignments),
      (distributeFrom f i l a).map Prod.fst = a.map Prod.fst := by
  intro l
  induction l with
  | nil => intro i a; rfl
  | cons s rest ih =>
    intro i a
    simp only [distributeFrom]
    rw [ih, recordPush_keys]

lemma distributeFrom_get (f : Nat → String) :
    ∀ (l : List (Store × ℚ)) (i : Nat) (a : Assignments) (k : String),
      recordGet (distributeFrom f i l a) k
        = (recordGet a k).map
            (fun v => v ++ ((withIdx i l).filter (fun p => f p.1 = k)).map (fun p => p.2.1.id)) := by
  intro l
  induction l with
  | nil =>
    intro i a k
    simp only [distributeFrom, withIdx, List.filter_nil, List.map_nil, List.append_nil]
    cases recordGet a k <;> simp
  | cons s rest ih =>
    intro i a k
    simp only [distributeFrom]
    rw [ih, recordGet_recordPush]
    by_cases hf : k = f i
    · subst hf
      rw [if_pos rfl]
      simp only [withIdx, List.filter_cons, decide_eq_true_eq, if_true]
      cases recordGet a (f i) <;> simp [List.append_assoc]
    · rw [if_neg hf]
      simp only [withIdx, List.filter_cons, decide_eq_true_eq]
      rw [if_neg (fun hh => hf hh.symm)]

lemma mem_withIdx_of_mem {α : Type _} {x : α} {l : List α} (h : x ∈ l) :
    ∀ i : Nat, ∃ j, (j, x) ∈ withIdx i l := by
  induction h with
  | head ys => intro i; exact ⟨i, by simp [withIdx]⟩
  | tail y hmem ih =>
    intro i
    rcases ih (i + 1) with ⟨j, hj⟩
    exact ⟨j, by simp [withIdx, hj]⟩

lemma withIdx_countP {α : Type _} (q : Nat → Bool) :
    ∀ (l : List α) (i : Nat),
      (withIdx i l).countP (fun p => q p.1) = (List.range l.length).countP (fun j => q (i + j)) := by
  intro l
  induction l with
  | nil => intro i; simp [withIdx]
  | cons y ys ih =>
    intro i
    rw [List.length_cons, List.range_succ_eq_map]
    simp only [withIdx, List.countP_cons]
    rw [ih, List.countP_map]
    have harith : ((fun j => q (i + j)) ∘ Nat.succ) = fun j => q (i + 1 + j) := by
      funext j
      simp only [Function.comp]
      congr 1
      omega
    rw [harith]
    simp [Nat.add_zero]

lemma range_count_mod (M j : Nat) (hM : 0 < M) (hj : j < M) :
    ∀ N, (List.range N).countP (fun i => decide (i % M = j))
      = N / M + if j < N % M then 1 else 0 := by
  intro N
  induction N with
  | zero => simp [Nat.not_lt_zero]
  | succ n ih =>
    rw [List.range_succ, List.countP_append, ih]
    simp only [List.countP_cons, List.countP_nil, decide_eq_true_eq]
    have hn : M * (n / M) + n % M = n := Nat.div_add_mod n M
    have hrlt : n % M < M := Nat.mod_lt _ hM
    rcases Nat.lt_or_ge (n % M + 1) M with hc | hc
    · have h1 : n + 1 = M * (n / M) + (n % M + 1) := by omega
      have hdiv : (n + 1) / M = n / M := by
        rw [h1, Nat.mul_add_div hM, Nat.div_eq_of_lt hc, Nat.add_zero]
      have hmod : (n + 1) % M = n % M + 1 := by
        rw [h1, Nat.mul_add_mod, Nat.mod_eq_of_lt hc]
      rw [hdiv, hmod]
      split_ifs <;> omega
    · have h1 : n + 1 = M * (n / M + 1) := by
        rw [Nat.mul_succ]
        omega
      have hdiv : (n + 1) / M = n / M + 1 := by
        rw [h1, Nat.mul_div_cancel_left _ hM]
      have hmod : (n + 1) % M = 0 := by
        rw [h1]
        exact Nat.mul_mod_right M _
      rw [hdiv, hmod]
      split_ifs <;> omega

/- ## Lemmas about roster keys and identifier attachment -/

lemma rosterKey_eq_iff {roster : List Truck} (t0 : Truck)
    (hnd : (roster.map (fun t => t.id)).Nodup) {j : Nat} (hj : j < roster.length) (i : Nat) :
    rosterKey roster t0 i = (roster.getD j t0).id ↔ i % roster.length = j := by
  have hM : 0 < roster.length := Nat.lt_of_le_of_lt (Nat.zero_le j) hj
  have hi : i % roster.length < roster.length := Nat.mod_lt _ hM
  rw [rosterKey, List.getD_eq_getElem _ _ hi, List.getD_eq_getElem _ _ hj]
  constructor
  · intro h
    have hi2 : i % roster.length < (roster.map (fun t => t.id)).length := by simpa using hi
    have hj2 : j < (roster.map (fun t => t.id)).length := by simpa using hj
    have h1 : (roster.map (fun t => t.id)).get ⟨i % roster.length, hi2⟩
        = (roster.map (fun t => t.id)).get ⟨j, hj2⟩ := by
      simpa using h
    have h2 := (List.Nodup.get_inj_iff hnd).mp h1
    simpa using h2
  · intro h
    simp only [h]

lemma attachIds_length (ids : Nat → String) (now : String) :
    ∀ (k0 : Nat) (l : List RouteCore), (attachIds ids now k0 l).length = l.length := by
  intro k0 l
  induction l generalizing k0 with
  | nil => rfl
  | cons c cs ih => simp [attachIds, ih]

lemma attachIds_map_core (ids : Nat → String) (now : String) :
    ∀ (k0 : Nat) (l : List RouteCore), (attachIds ids now k0 l).map Route.core = l := by
  intro k0 l
  induction l generalizing k0 with
  | nil => rfl
  | cons c cs ih => simp [attachIds, ih, Route.core, RouteCore.toRoute]

lemma attachIds_map_id (ids : Nat → String) (now : String) :
    ∀ (k0 : Nat) (l : List RouteCore),
      (attachIds ids now k0 l).map (fun r => r.id)
        = (List.range l.length).map (fun k => ids (k0 + k)) := by
  intro k0 l
  induction l generalizing k0 with
  | nil => rfl
  | cons c cs ih =>
    rw [List.length_cons, List.range_succ_eq_map]
    simp only [attachIds, List.map_cons, List.map_map]
    rw [ih]
    have harith : ((fun k => ids (k0 + k)) ∘ Nat.succ) = fun k => ids (k0 + 1 + k) := by
      funext k
      simp only [Function.comp]
      congr 1
      omega
    rw [harith]
    simp [RouteCore.toRoute]

lemma mem_attachIds_of_mem {c : RouteCore} {l : List RouteCore} (h : c ∈ l)
    (ids : Nat → String) (now : String) :
    ∀ k0 : Nat, ∃ k, (c.toRoute (ids k) now) ∈ attachIds ids now k0 l := by
  induction h with
  | head ys => intro k0; exact ⟨k0, by simp [attachIds]⟩
  | tail y hmem ih =>
    intro k0
    rcases ih (k0 + 1) with ⟨k, hk⟩
    exact ⟨k, by simp [attachIds, hk]⟩

lemma mem_attachIds {r : Route} {ids : Nat → String} {now : String} :
    ∀ {k0 : Nat} {l : List RouteCore}, r ∈ attachIds ids now k0 l →
      ∃ c ∈ l, ∃ k, k0 ≤ k ∧ k < k0 + l.length ∧ r = c.toRoute (ids k) now := by
  intro k0 l
  induction l generalizing k0 with
  | nil => intro h; cases h
  | cons c cs ih =>
    intro h
    rcases List.mem_cons.mp h with h1 | h2
    · exact ⟨c, List.mem_cons_self c cs, k0, Nat.le_refl _,
        by rw [List.length_cons]; omega, h1⟩
    · rcases ih h2 with ⟨c', hc', k, hk1, hk2, hk⟩
      exact ⟨c', List.mem_cons_of_mem c hc', k, by omega,
        by rw [List.length_cons]; omega, hk⟩

lemma attachIds_countP (p : Route → Bool) (p' : RouteCore → Bool)
    (hpp : ∀ (c : RouteCore) (rid now' : String), p (c.toRoute rid now') = p' c)
    (ids : Nat → String) (now : String) :
    ∀ (k0 : Nat) (l : List RouteCore), (attachIds ids now k0 l).countP p = l.countP p' := by
  intro k0 l
  induction l generalizing k0 with
  | nil => rfl
  | cons c cs ih => simp [attachIds, List.countP_cons, ih, hpp]

/- ## Lemmas about route emission -/

lemma tourFrom_eq_legSum (dist : Location → Location → ℚ) (home : Location) :
    ∀ (locs : List Location) (prev : Location),
      tourFrom dist home prev locs = legSum dist (prev :: (locs ++ [home])) := by
  intro locs
  induction locs with
  | nil => intro prev; simp [tourFrom, legSum]
  | cons l ls ih => intro prev; simp [tourFrom, legSum, ih]

lemma emitRoute_eq_some {dist : Location → Location → ℚ} {stores : List Store}
    {trucks : List Truck} {w : Warehouse} {e : String × List String} {c : RouteCore}
    (h : emitRoute dist stores trucks w e = some c) :
    e.2 ≠ [] ∧ ∃ truck, trucks.find? (fun t => t.id = e.1) = some truck ∧
      c = { warehouseId := w.id, truckId := e.1, stores := e.2,
            distance := round2 (tourOf dist stores w e.2),
            estimatedTime := jround2 (jsDiv (tourOf dist stores w e.2) truck.speed) } := by
  unfold emitRoute at h
  by_cases he : e.2.isEmpty
  · rw [if_pos he] at h; cases h
  · rw [if_neg he] at h
    cases hf : trucks.find? (fun t => t.id = e.1) with
    | none => rw [hf] at h; cases h
    | some truck =>
      rw [hf] at h
      refine ⟨by simpa [List.isEmpty_iff] using he, truck, rfl, ?_⟩
      exact (Option.some_inj.mp h).symm

lemma emitRoute_some_of (dist : Location → Location → ℚ) (stores : List Store)
    (trucks : List Truck) (w : Warehouse) {k : String} {v : List String} {truck : Truck}
    (hv : v ≠ []) (hf : trucks.find? (fun t => t.id = k) = some truck) :
    emitRoute dist stores trucks w (k, v)
      = some { warehouseId := w.id, truckId := k, stores := v,
               distance := round2 (tourOf dist stores w v),
               estimatedTime := jround2 (jsDiv (tourOf dist stores w v) truck.speed) } := by
  unfold emitRoute
  rw [if_neg (by simpa [List.isEmpty_iff] using hv), hf]

lemma emitRoute_isSome_iff {dist : Location → Location → ℚ} {stores : List Store}
    {trucks : List Truck} {w : Warehouse} (e : String × List String) :
    (emitRoute dist stores trucks w e).isSome
      ↔ e.2 ≠ [] ∧ (trucks.find? (fun t => t.id = e.1)).isSome := by
  unfold emitRoute
  by_cases he : e.2.isEmpty
  · simp [he, List.isEmpty_iff.mp he]
  · rw [if_neg he]
    cases hf : trucks.find? (fun t => t.id = e.1) <;>
      simp_all [List.isEmpty_iff]

/- ## Counting helpers -/

lemma countP_flatMap {α β : Type _} (f : α → List β) (p : β → Bool) :
    ∀ l : List α, (l.flatMap f).countP p = (l.map (fun a => (f a).countP p)).sum := by
  intro l
  induction l with
  | nil => rfl
  | cons a as ih => simp [List.flatMap_cons, List.countP_append, ih]

lemma countP_filterMap {α β : Type _} (f : α → Option β) (p : β → Bool) :
    ∀ l : List α, (l.filterMap f).countP p
      = l.countP (fun a => ((f a).map p).getD false) := by
  intro l
  induction l with
  | nil => rfl
  | cons a as ih =>
    rw [List.filterMap_cons]
    cases hf : f a with
    | none => simp [List.countP_cons, hf, ih]
    | some b => simp [List.countP_cons, hf, ih]

lemma countP_entries_key (g : (String × List String) → Bool) :
    ∀ (a : Assignments) (k : String), (a.map Prod.fst).Nodup →
      a.countP (fun e => decide (e.1 = k) && g e)
        = ((a.find? (fun e => e.1 = k)).map (fun e => if g e then 1 else 0)).getD 0 := by
  intro a
  induction a with
  | nil => intro k _; rfl
  | cons p rest ih =>
    intro k hnd
    rw [List.map_cons, List.nodup_cons] at hnd
    by_cases hp : p.1 = k
    · have hz : rest.countP (fun e => decide (e.1 = k) && g e) = 0 := by
        rw [List.countP_eq_zero]
        intro e he
        have hek : e.1 ≠ k := by
          intro hek
          apply hnd.1
          rw [hp, ← hek]
          exact List.mem_map_of_mem Prod.fst he
        simp [hek]
      rw [List.countP_cons, hz, List.find?_cons_of_pos _ (by simpa using hp)]
      simp [hp]
    · rw [List.countP_cons, List.find?_cons_of_neg _ (by simpa using hp), ih k hnd.2]
      simp [hp]

lemma find?_eq_of_recordGet {a : Assignments} {k : String} {v : List String}
    (h : recordGet a k = some v) :
    a.find? (fun e => e.1 = k) = some (k, v) := by
  unfold recordGet at h
  cases hf : a.find? (fun e => e.1 = k) with
  | none => rw [hf] at h; cases h
  | some e =>
    rw [hf] at h
    obtain ⟨e1, e2⟩ := e
    have he1 : e1 = k := by simpa using List.find?_some hf
    have he2 : e2 = v := by simpa using h
    subst he1
    subst he2
    rfl

lemma find?_eq_none_of_recordGet {a : Assignments} {k : String}
    (h : recordGet a k = none) :
    a.find? (fun e => e.1 = k) = none := by
  unfold recordGet at h
  cases hf : a.find? (fun e => e.1 = k) with
  | none => rfl
  | some e => rw [hf] at h; cases h

lemma recordGet_mem {a : Assignments} {k : String} {v : List String}
    (h : recordGet a k = some v) : (k, v) ∈ a :=
  List.mem_of_find?_eq_some (find?_eq_of_recordGet h)

/- ## The assignment record of one depot -/

lemma depotAssignments_get (dist : Location → Location → ℚ) (stores : List Store)
    (trucks : List Truck) (w : Warehouse) (t0 : Truck) (k : String) :
    recordGet (depotAssignments dist stores trucks w t0) k
      = if k ∈ (depotRoster trucks w).map (fun t => t.id)
        then some (((withIdx 0 (depotSorted dist stores w)).filter
               (fun p => rosterKey (depotRoster trucks w) t0 p.1 = k)).map (fun p => p.2.1.id))
        else none := by
  rw [depotAssignments, distributeFrom_get, recordGet_initAssignments]
  by_cases hk : k ∈ (depotRoster trucks w).map (fun t => t.id) <;> simp [hk]

lemma depotAssignments_get_at (dist : Location → Location → ℚ) (stores : List Store)
    (trucks : List Truck) (w : Warehouse) (t0 : Truck)
    (hnd : ((depotRoster trucks w).map (fun t => t.id)).Nodup) {j : Nat}
    (hj : j < (depotRoster trucks w).length) :
    recordGet (depotAssignments dist stores trucks w t0) (((depotRoster trucks w).getD j t0).id)
      = some (((withIdx 0 (depotSorted dist stores w)).filter
          (fun p => p.1 % (depotRoster trucks w).length = j)).map (fun p => p.2.1.id)) := by
  rw [depotAssignments_get]
  rw [if_pos ?hmem]
  case hmem =>
    rw [List.getD_eq_getElem _ _ hj]
    exact List.mem_map_of_mem _ (List.getElem_mem hj)
  congr 1
  congr 1
  apply List.filter_congr
  intro p _
  simp only [decide_eq_decide]
  exact rosterKey_eq_iff t0 hnd hj p.1

lemma depotAssignments_count (dist : Location → Location → ℚ) (stores : List Store)
    (trucks : List Truck) (w : Warehouse) {j : Nat}
    (hj : j < (depotRoster trucks w).length) :
    (((withIdx 0 (depotSorted dist stores w)).filter
        (fun p => p.1 % (depotRoster trucks w).length = j)).map (fun p => p.2.1.id)).length
      = stores.length / (depotRoster trucks w).length
        + if j < stores.length % (depotRoster trucks w).length then 1 else 0 := by
  have hM : 0 < (depotRoster trucks w).length := Nat.lt_of_le_of_lt (Nat.zero_le j) hj
  rw [List.length_map, ← List.countP_eq_length_filter,
    withIdx_countP (fun i => decide (i % (depotRoster trucks w).length = j))]
  have hlen : (depotSorted dist stores w).length = stores.length := by
    rw [depotSorted, sortByDist_length, storesWithDistance, List.length_map]
  rw [hlen]
  have hcongr : ∀ x ∈ List.range stores.length,
      (decide ((0 + x) % (depotRoster trucks w).length = j) = true
        ↔ decide (x % (depotRoster trucks w).length = j) = true) := by
    intro x _
    simp
  rw [List.countP_congr hcongr]
  exact range_count_mod _ j hM hj stores.length

lemma count_pos_iff (N : Nat) {M j : Nat} (hM : 0 < M) (hj : j < M) :
    0 < N / M + (if j < N % M then 1 else 0) ↔ j < N := by
  constructor
  · intro h
    by_cases hNM : M ≤ N
    · exact Nat.lt_of_lt_of_le hj hNM
    · push_neg at hNM
      rw [Nat.div_eq_of_lt hNM, Nat.mod_eq_of_lt hNM] at h
      split_ifs at h with hlt
      · exact hlt
      · omega
  · intro h
    by_cases hNM : M ≤ N
    · have hpos : 0 < N / M := Nat.div_pos hNM hM
      omega
    · push_neg at hNM
      rw [Nat.div_eq_of_lt hNM, Nat.mod_eq_of_lt hNM]
      simp [h]

/- ## What membership in the produced routes implies -/

lemma mem_processWarehouse {dist : Location → Location → ℚ} {stores : List Store}
    {trucks : List Truck} {w : Warehouse} {c : RouteCore}
    (h : c ∈ processWarehouse dist stores trucks w) :
    c.warehouseId = w.id ∧ c.stores ≠ [] ∧
    (∃ t ∈ depotRoster trucks w, t.id = c.truckId) ∧
    ∃ truck, trucks.find? (fun t => t.id = c.truckId) = some truck ∧
      c.distance = round2 (tourOf dist stores w c.stores) ∧
      c.estimatedTime = jround2 (jsDiv (tourOf dist stores w c.stores) truck.speed) := by
  unfold processWarehouse at h
  cases hR : depotRoster trucks w with
  | nil => rw [hR] at h; cases h
  | cons t0 rest =>
    rw [hR] at h
    rcases List.mem_filterMap.mp h with ⟨e, he, hemit⟩
    obtain ⟨hne, truck, hfind, rfl⟩ := emitRoute_eq_some hemit
    refine ⟨rfl, hne, ?_, truck, hfind, rfl, rfl⟩
    have hkey : e.1 ∈ (depotAssignments dist stores trucks w t0).map Prod.fst :=
      List.mem_map_of_mem Prod.fst he
    rw [depotAssignments, distributeFrom_keys] at hkey
    rcases initFold_keys_sub _ _ _ (by simpa [initAssignments] using hkey) with h1 | h2
    · simp at h1
    · rcases List.mem_map.mp h2 with ⟨t, ht, hid⟩
      rw [hR] at ht
      exact ⟨t, ht, hid⟩

lemma route_spec {dist : Location → Location → ℚ} {st : DataState}
    {ids : Nat → String} {now : String} {r : Route}
    (h : r ∈ (generateRoutes dist st ids now).routes) :
    ∃ w ∈ st.warehouses, r.warehouseId = w.id ∧ r.stores ≠ [] ∧
      (∃ t ∈ depotRoster st.trucks w, t.id = r.truckId) ∧
      ∃ truck, st.trucks.find? (fun t => t.id = r.truckId) = some truck ∧
        r.distance = round2 (tourOf dist st.stores w r.stores) ∧
        r.estimatedTime = jround2 (jsDiv (tourOf dist st.stores w r.stores) truck.speed) := by
  rcases mem_attachIds h with ⟨c, hc, k, _, _, rfl⟩
  rcases List.mem_flatMap.mp hc with ⟨w, hw, hcw⟩
  obtain ⟨h1, h2, h3, truck, h4, h5, h6⟩ := mem_processWarehouse hcw
  exact ⟨w, hw, h1, h2, h3, truck, h4, h5, h6⟩

lemma generateRoutes_routes (dist : Location → Location → ℚ) (st : DataState)
    (ids : Nat → String) (now : String) :
    (generateRoutes dist st ids now).routes
      = attachIds ids now 0 (genRoutesCore dist st.warehouses st.stores st.trucks) := rfl

lemma processWarehouse_eq_nil {dist : Location → Location → ℚ} {stores : List Store}
    {trucks : List Truck} {w : Warehouse}
    (hR : depotRoster trucks w = []) :
    processWarehouse dist stores trucks w = [] := by
  unfold processWarehouse
  rw [hR]

lemma processWarehouse_eq_cons {dist : Location → Location → ℚ} {stores : List Store}
    {trucks : List Truck} {w : Warehouse} {t0 : Truck} {rest : List Truck}
    (hR : depotRoster trucks w = t0 :: rest) :
    processWarehouse dist stores trucks w
      = (depotAssignments dist stores trucks w t0).filterMap (emitRoute dist stores trucks w) := by
  unfold processWarehouse
  rw [hR]

lemma store_assigned (dist : Location → Location → ℚ) (stores : List Store)
    (trucks : List Truck) (w : Warehouse) (s : Store) (hs : s ∈ stores)
    (hne : depotRoster trucks w ≠ []) :
    ∃ c ∈ processWarehouse dist stores trucks w, c.warehouseId = w.id ∧ s.id ∈ c.stores := by
  cases hR : depotRoster trucks w with
  | nil => exact absurd hR hne
  | cons t0 rest =>
    have hM : 0 < (depotRoster trucks w).length := by rw [hR]; simp
    have hsw : (s, dist w.location s.location) ∈ storesWithDistance dist stores w :=
      List.mem_map_of_mem _ hs
    have hsorted : (s, dist w.location s.location) ∈ depotSorted dist stores w :=
      (sortByDist_perm _).mem_iff.mpr hsw
    rcases mem_withIdx_of_mem hsorted 0 with ⟨i, hi⟩
    have hkmem : rosterKey (depotRoster trucks w) t0 i
        ∈ (depotRoster trucks w).map (fun t => t.id) := by
      rw [rosterKey]
      have hlt : i % (depotRoster trucks w).length < (depotRoster trucks w).length :=
        Nat.mod_lt _ hM
      rw [List.getD_eq_getElem _ _ hlt]
      exact List.mem_map_of_mem _ (List.getElem_mem hlt)
    have hget := depotAssignments_get dist stores trucks w t0 (rosterKey (depotRoster trucks w) t0 i)
    rw [if_pos hkmem] at hget
    have hsv : s.id ∈ ((withIdx 0 (depotSorted dist stores w)).filter
        (fun p => rosterKey (depotRoster trucks w) t0 p.1
          = rosterKey (depotRoster trucks w) t0 i)).map (fun p => p.2.1.id) := by
      refine List.mem_map.mpr ⟨(i, (s, dist w.location s.location)), ?_, rfl⟩
      apply List.mem_filter.mpr
      exact ⟨hi, by simp⟩
    have hmem := recordGet_mem hget
    rcases List.mem_map.mp hkmem with ⟨t, ht, htid⟩
    have hfindsome : (trucks.find? (fun t' => t'.id
        = rosterKey (depotRoster trucks w) t0 i)).isSome := by
      rw [List.find?_isSome]
      exact ⟨t, List.mem_of_mem_filter ht, by simp [htid]⟩
    rcases Option.isSome_iff_exists.mp hfindsome with ⟨truck, htruck⟩
    have hvne : ((withIdx 0 (depotSorted dist stores w)).filter
        (fun p => rosterKey (depotRoster trucks w) t0 p.1
          = rosterKey (depotRoster trucks w) t0 i)).map (fun p => p.2.1.id) ≠ [] := by
      intro hE
      rw [hE] at hsv
      cases hsv
    have hemit := emitRoute_some_of dist stores trucks w hvne htruck
    have hcmem := List.mem_filterMap.mpr ⟨_, hmem, hemit⟩
    rw [← processWarehouse_eq_cons hR] at hcmem
    exact ⟨_, hcmem, rfl, hsv⟩

lemma sum_range_div_add_ite (q r : Nat) :
    ∀ M : Nat, ((List.range M).map (fun j => q + if j < r then 1 else 0)).sum
      = M * q + min r M := by
  intro M
  induction M with
  | zero => simp
  | succ m ih =>
    rw [List.range_succ, List.map_append, List.sum_append, ih]
    simp only [List.map_cons, List.map_nil, List.sum_cons, List.sum_nil]
    rw [Nat.succ_mul]
    split_ifs <;> omega

lemma map_sum_single (g : Warehouse → Nat) :
    ∀ (ws : List Warehouse), (ws.map (fun x => x.id)).Nodup → ∀ {w : Warehouse}, w ∈ ws →
      (∀ w' ∈ ws, w'.id ≠ w.id → g w' = 0) → (ws.map g).sum = g w := by
  intro ws
  induction ws with
  | nil => intro _ w hw; cases hw
  | cons a as ih =>
    intro hnd w hw hz
    rw [List.map_cons, List.nodup_cons] at hnd
    rcases List.mem_cons.mp hw with rfl | hmem
    · rw [List.map_cons, List.sum_cons]
      have hrest : (as.map g).sum = 0 := by
        apply List.sum_eq_zero
        intro x hx
        rcases List.mem_map.mp hx with ⟨w', hw', rfl⟩
        apply hz w' (List.mem_cons_of_mem _ hw')
        intro hE
        apply hnd.1
        rw [← hE]
        exact List.mem_map_of_mem _ hw'
      rw [hrest]
      omega
    · rw [List.map_cons, List.sum_cons]
      have hga : g a = 0 := by
        apply hz a (List.mem_cons_self a as)
        intro hE
        apply hnd.1
        rw [hE]
        exact List.mem_map_of_mem _ hmem
      rw [hga, ih hnd.2 hmem (fun w' hw' hne => hz w' (List.mem_cons_of_mem a hw') hne)]
      omega

lemma processWarehouse_countP_other (dist : Location → Location → ℚ) (stores : List Store)
    (trucks : List Truck) {w w' : Warehouse} (hne : w'.id ≠ w.id) (tid : String) :
    (processWarehouse dist stores trucks w').countP
      (fun c => decide (c.warehouseId = w.id) && decide (c.truckId = tid)) = 0 := by
  rw [List.countP_eq_zero]
  intro c hc
  have h1 := (mem_processWarehouse hc).1
  simp [h1, hne]

lemma processWarehouse_countP_self (dist : Location → Location → ℚ) (stores : List Store)
    (trucks : List Truck) (w : Warehouse) (t : Truck)
    (ht : (trucks.map (fun x => x.id)).Nodup) (htmem : t ∈ trucks) :
    (processWarehouse dist stores trucks w).countP
        (fun c => decide (c.warehouseId = w.id) && decide (c.truckId = t.id))
      = if t.warehouseId = w.id ∧ (depotRoster trucks w).indexOf t < stores.length
        then 1 else 0 := by
  have hrnd : ((depotRoster trucks w).map (fun x => x.id)).Nodup :=
    ht.sublist ((List.filter_sublist trucks).map _)
  by_cases hRe : depotRoster trucks w = []
  · rw [processWarehouse_eq_nil hRe, List.countP_nil]
    have hcond : ¬ (t.warehouseId = w.id ∧ (depotRoster trucks w).indexOf t < stores.length) := by
      rintro ⟨h1, _⟩
      have hmem2 : t ∈ depotRoster trucks w := List.mem_filter.mpr ⟨htmem, by simp [h1]⟩
      rw [hRe] at hmem2
      cases hmem2
    rw [if_neg hcond]
  · rcases List.exists_cons_of_ne_nil hRe with ⟨t0, rest, hR⟩
    have hM : 0 < (depotRoster trucks w).length := List.length_pos.mpr hRe
    have hkeys : ((depotAssignments dist stores trucks w t0).map Prod.fst).Nodup := by
      rw [depotAssignments, distributeFrom_keys, initAssignments_keys _ hrnd]
      exact hrnd
    rw [processWarehouse_eq_cons hR, countP_filterMap]
    have hpt : ∀ e ∈ depotAssignments dist stores trucks w t0,
        ((((emitRoute dist stores trucks w e).map
            (fun c => decide (c.warehouseId = w.id) && decide (c.truckId = t.id))).getD false) = true
          ↔ (decide (e.1 = t.id) && (emitRoute dist stores trucks w e).isSome) = true) := by
      intro e _
      cases hemit : emitRoute dist stores trucks w e with
      | none => simp
      | some c =>
        obtain ⟨_, truck, _, rfl⟩ := emitRoute_eq_some hemit
        simp [eq_comm]
    rw [List.countP_congr hpt,
      countP_entries_key (fun e => (emitRoute dist stores trucks w e).isSome) _ t.id hkeys]
    by_cases hwt : t.warehouseId = w.id
    · have htr : t ∈ depotRoster trucks w := List.mem_filter.mpr ⟨htmem, by simp [hwt]⟩
      have hj : (depotRoster trucks w).indexOf t < (depotRoster trucks w).length :=
        List.indexOf_lt_length.mpr htr
      have hkey : ((depotRoster trucks w).getD ((depotRoster trucks w).indexOf t) t0).id
          = t.id := by
        rw [List.getD_eq_getElem _ _ hj, List.getElem_indexOf hj]
      have hgetv := depotAssignments_get_at dist stores trucks w t0 hrnd hj
      rw [hkey] at hgetv
      have hlen := depotAssignments_count dist stores trucks w hj
      set V := ((withIdx 0 (depotSorted dist stores w)).filter
          (fun p => p.1 % (depotRoster trucks w).length
            = (depotRoster trucks w).indexOf t)).map (fun p => p.2.1.id) with hV
      rw [find?_eq_of_recordGet hgetv]
      have hfs : (trucks.find? (fun t' => t'.id = t.id)).isSome := by
        rw [List.find?_isSome]
        exact ⟨t, htmem, by simp⟩
      by_cases hjN : (depotRoster trucks w).indexOf t < stores.length
      · have hvpos : 0 < V.length := by
          rw [hlen]
          exact (count_pos_iff stores.length hM hj).mpr hjN
        have hvne : V ≠ [] := by
          intro hE
          rw [hE] at hvpos
          simp at hvpos
        have hemitS : (emitRoute dist stores trucks w (t.id, V)).isSome :=
          (emitRoute_isSome_iff _).mpr ⟨hvne, hfs⟩
        simp only [Option.map_some', Option.getD_some]
        rw [if_pos hemitS, if_pos ⟨hwt, hjN⟩]
      · have hvz : V.length = 0 := by
          rw [hlen]
          have hiff := count_pos_iff stores.length hM hj
          omega
        have hveq : V = [] := List.length_eq_zero.mp hvz
        have hemitN : ¬ (emitRoute dist stores trucks w (t.id, V)).isSome = true := by
          rw [emitRoute_isSome_iff]
          rintro ⟨hne2, _⟩
          exact hne2 hveq
        simp only [Option.map_some', Option.getD_some]
        rw [if_neg hemitN, if_neg (fun hc => hjN hc.2)]
    · have hnotin : t.id ∉ (depotRoster trucks w).map (fun x => x.id) := by
        intro hmem2
        rcases List.mem_map.mp hmem2 with ⟨t', ht', hid⟩
        have h1 : t' ∈ trucks := List.mem_of_mem_filter ht'
        have h2 : t'.warehouseId = w.id := by simpa using List.of_mem_filter ht'
        have h3 : t' = t := List.inj_on_of_nodup_map ht h1 htmem hid
        rw [h3] at h2
        exact hwt h2
      have hgetn : recordGet (depotAssignments dist stores trucks w t0) t.id = none := by
        rw [depotAssignments_get, if_neg hnotin]
      rw [find?_eq_none_of_recordGet hgetn]
      rw [if_neg (fun hc => hwt hc.1)]
      rfl

lemma generateRoutes_warehouses (dist : Location → Location → ℚ) (st : DataState)
    (ids : Nat → String) (now : String) :
    (generateRoutes dist st ids now).warehouses = st.warehouses := rfl

lemma generateRoutes_stores (dist : Location → Location → ℚ) (st : DataState)
    (ids : Nat → String) (now : String) :
    (generateRoutes dist st ids now).stores = st.stores := rfl

lemma generateRoutes_trucks (dist : Location → Location → ℚ) (st : DataState)
    (ids : Nat → String) (now : String) :
    (generateRoutes dist st ids now).trucks = st.trucks := rfl

/- ## The claims -/

/-- C7: for a fixed state of depots, destinations and vehicles, two
successive calls to `generateRoutes` (the second running on the state the
first produced) yield route collections of equal length that agree position
by position on depot identifier, vehicle identifier, store sequence, total
distance and estimated duration: stripping the identifier and the creation
timestamp with `Route.core` leaves identical lists (identifiers and
timestamps may differ between the runs). -/
theorem c7_generate_deterministic (dist : Location → Location → ℚ) (st : DataState)
    (ids1 ids2 : Nat → String) (now1 now2 : String) :
    (generateRoutes dist (generateRoutes dist st ids1 now1) ids2 now2).routes.length
      = (generateRoutes dist st ids1 now1).routes.length ∧
    (generateRoutes dist (generateRoutes dist st ids1 now1) ids2 now2).routes.map Route.core
      = (generateRoutes dist st ids1 now1).routes.map Route.core := by
  constructor
  · rw [generateRoutes_routes, generateRoutes_routes, attachIds_length, attachIds_length,
      generateRoutes_warehouses, generateRoutes_stores, generateRoutes_trucks]
  · rw [generateRoutes_routes, generateRoutes_routes, attachIds_map_core, attachIds_map_core,
      generateRoutes_warehouses, generateRoutes_stores, generateRoutes_trucks]

/-- C4: every route emitted by `generateRoutes` has its distance equal to
the sum of distances over the consecutive legs of the path depot → assigned
destinations in assignment order → depot, rounded to 2 decimal places, and
its estimated duration equal to that (unrounded) leg sum divided by the
assigned vehicle's speed, rounded to 2 decimal places.  This requires the
speed-positivity precondition the specification states for well-formed
input. -/
theorem c4_route_distance_time (dist : Location → Location → ℚ) (st : DataState)
    (ids : Nat → String) (now : String) (hspeed : ∀ t ∈ st.trucks, 0 < t.speed) :
    ∀ r ∈ (generateRoutes dist st ids now).routes,
      ∃ w ∈ st.warehouses, r.warehouseId = w.id ∧
        r.distance
          = round2 (legSum dist (w.location :: (locsOf st.stores r.stores ++ [w.location]))) ∧
        ∃ truck, st.trucks.find? (fun t => t.id = r.truckId) = some truck ∧
          r.estimatedTime = JNum.fin (round2
            (legSum dist (w.location :: (locsOf st.stores r.stores ++ [w.location]))
              / truck.speed)) := by
  intro r hr
  obtain ⟨w, hw, h1, _, _, truck, h4, h5, h6⟩ := route_spec hr
  have htruck : truck ∈ st.trucks := List.mem_of_find?_eq_some h4
  have hsp : truck.speed ≠ 0 := ne_of_gt (hspeed truck htruck)
  refine ⟨w, hw, h1, ?_, truck, h4, ?_⟩
  · rw [h5, tourOf, tourFrom_eq_legSum]
  · rw [h6, tourOf, tourFrom_eq_legSum, jsDiv, if_pos hsp]
    rfl

/-- Witness for C4: the speed hypothesis holds on the concrete example
state, and the conclusion follows by applying the theorem there. -/
theorem c4_witness :
    (∀ t ∈ stEx.trucks, 0 < t.speed) ∧
    ∀ r ∈ (generateRoutes distEx stEx idsEx "now").routes,
      ∃ w ∈ stEx.warehouses, r.warehouseId = w.id ∧
        r.distance
          = round2 (legSum distEx (w.location :: (locsOf stEx.stores r.stores ++ [w.location]))) ∧
        ∃ truck, stEx.trucks.find? (fun t => t.id = r.truckId) = some truck ∧
          r.estimatedTime = JNum.fin (round2
            (legSum distEx (w.location :: (locsOf stEx.stores r.stores ++ [w.location]))
              / truck.speed)) :=
  ⟨by with_unfolding_all decide, c4_route_distance_time distEx stEx idsEx "now" (by with_unfolding_all decide)⟩

/-- C5 counterexample: with one depot, one store and a single truck whose
speed is 0, `generateRoutes` silently emits the route with
`estimatedTime = Infinity`.  JavaScript number division never throws, so no
DivideByZero-class error reaches the caller, contradicting the claim. -/
theorem c5_counterexample :
    (generateRoutes distEx stZero idsEx "now").routes.map (fun r => r.estimatedTime)
      = [JNum.inf] := by with_unfolding_all rfl

/-- C5 amended: if a vehicle with at least one assigned destination has
speed 0, the engine does not fail; it silently emits that vehicle's route
with `estimatedTime` equal to `Infinity` when the unrounded tour distance is
positive (`-Infinity` when negative, `NaN` when zero). -/
theorem c5_zero_speed_silent (dist : Location → Location → ℚ) (st : DataState)
    (ids : Nat → String) (now : String) :
    ∀ r ∈ (generateRoutes dist st ids now).routes,
      ∃ w ∈ st.warehouses, r.warehouseId = w.id ∧
        ∀ truck, st.trucks.find? (fun t => t.id = r.truckId) = some truck →
          truck.speed = 0 →
          r.estimatedTime = (if 0 < tourOf dist st.stores w r.stores then JNum.inf
            else if tourOf dist st.stores w r.stores < 0 then JNum.negInf else JNum.nan) := by
  intro r hr
  obtain ⟨w, hw, h1, _, _, truck', h4, _, h6⟩ := route_spec hr
  refine ⟨w, hw, h1, ?_⟩
  intro truck hfind hsp
  rw [h4] at hfind
  injection hfind with hEq
  subst hEq
  rw [h6, hsp, jsDiv]
  rw [if_neg (fun h => h rfl)]
  by_cases hT : 0 < tourOf dist st.stores w r.stores
  · rw [if_pos hT]
    rfl
  · rw [if_neg hT]
    by_cases hT2 : tourOf dist st.stores w r.stores < 0
    · rw [if_pos hT2]
      rfl
    · rw [if_neg hT2]
      rfl

/-- Witness for the amended C5: on `stZero`, the emitted route `rZero` has
estimated time `Infinity`, obtained by applying the amended theorem. -/
theorem c5_witness :
    rZero ∈ (generateRoutes distEx stZero idsEx "now").routes ∧
    rZero.estimatedTime = JNum.inf := by
  have hmem : rZero ∈ (generateRoutes distEx stZero idsEx "now").routes := by with_unfolding_all decide
  obtain ⟨w, hw, _, h⟩ := c5_zero_speed_silent distEx stZero idsEx "now" rZero hmem
  have hw1 : w = wEx1 := by simpa [stZero] using hw
  subst hw1
  have hfin := h ⟨"t0", "T0", 100, 0, "w1"⟩ (by with_unfolding_all decide) rfl
  rw [hfin]
  exact ⟨hmem, by with_unfolding_all decide⟩

/-- C8 counterexample: the route repository operations return only the
updated state — there is no success/NotFound result channel.  On a state
with routes `a` and `b`, updating or deleting the non-existent identifier
`zzz` silently returns the state unchanged, indistinguishable from a no-op
success, refuting the claimed NotFound indication. -/
theorem c8_counterexample :
    updateRoute stAB "zzz" emptyPatch = stAB ∧ deleteRoute stAB "zzz" = stAB := by
  decide

/-- C8 amended: `updateRoute` and `deleteRoute` return no success/NotFound
indication; they return only the new state.  When no route carries the given
identifier both leave the state unchanged (silent no-op); when a route
matches, `updateRoute` keeps the patched route in the collection and
`deleteRoute` removes it. -/
theorem c8_update_delete_noop (st : DataState) (rid : String) (d : RoutePatch) :
    ((∀ r ∈ st.routes, r.id ≠ rid) → updateRoute st rid d = st ∧ deleteRoute st rid = st) ∧
    (∀ r ∈ st.routes, r.id = rid →
      applyPatch r d ∈ (updateRoute st rid d).routes ∧ r ∉ (deleteRoute st rid).routes) := by
  constructor
  · intro h
    constructor
    · have hmap : st.routes.map (fun r => if r.id = rid then applyPatch r d else r)
          = st.routes := by
        conv_rhs => rw [← List.map_id st.routes]
        apply List.map_congr_left
        intro r hr
        rw [if_neg (h r hr)]
        rfl
      show ({ st with routes := st.routes.map (fun r => if r.id = rid then applyPatch r d else r) } : DataState) = st
      rw [hmap]
    · have hfil : st.routes.filter (fun r => r.id ≠ rid) = st.routes := by
        rw [List.filter_eq_self]
        intro r hr
        simpa using h r hr
      show ({ st with routes := st.routes.filter (fun r => r.id ≠ rid) } : DataState) = st
      rw [hfil]
  · intro r hr hid
    constructor
    · refine List.mem_map.mpr ⟨r, hr, ?_⟩
      show (if r.id = rid then applyPatch r d else r) = applyPatch r d
      rw [if_pos hid]
    · intro hmem
      have := List.of_mem_filter hmem
      simp [hid] at this

/-- Witness for the amended C8: both behaviours at concrete inputs, obtained
by applying the amended theorem. -/
theorem c8_witness :
    (updateRoute stAB "qqq" emptyPatch = stAB ∧ deleteRoute stAB "qqq" = stAB) ∧
    (applyPatch rA emptyPatch ∈ (updateRoute stAB "a" emptyPatch).routes ∧
      rA ∉ (deleteRoute stAB "a").routes) :=
  ⟨(c8_update_delete_noop stAB "qqq" emptyPatch).1 (by with_unfolding_all decide),
   (c8_update_delete_noop stAB "a" emptyPatch).2 rA (by with_unfolding_all decide) (by with_unfolding_all decide)⟩

/-- C10: `deleteWarehouse` changes only the warehouse collection — trucks,
stores and routes are exactly unchanged, so trucks referencing the deleted
warehouse stay as dangling references — and a later `generateRoutes` call
produces no route for the deleted depot: no emitted route carries the
deleted warehouse identifier, and (given globally distinct truck
identifiers) no emitted route is assigned to a truck of the deleted depot. -/
theorem c10_deleteWarehouse_frame (st : DataState) (wid : String) :
    (deleteWarehouse st wid).trucks = st.trucks ∧
    (deleteWarehouse st wid).stores = st.stores ∧
    (deleteWarehouse st wid).routes = st.routes ∧
    (deleteWarehouse st wid).warehouses = st.warehouses.filter (fun w => w.id ≠ wid) ∧
    ∀ (dist : Location → Location → ℚ) (ids : Nat → String) (now : String) (r : Route),
      r ∈ (generateRoutes dist (deleteWarehouse st wid) ids now).routes →
      r.warehouseId ≠ wid ∧
      ((st.trucks.map (fun t => t.id)).Nodup →
        ∀ t ∈ st.trucks, t.warehouseId = wid → r.truckId ≠ t.id) := by
  refine ⟨rfl, rfl, rfl, rfl, ?_⟩
  intro dist ids now r hr
  obtain ⟨w, hw, h1, _, ⟨t', ht', hid'⟩, _⟩ := route_spec hr
  have hw' : w ∈ st.warehouses.filter (fun x => x.id ≠ wid) := hw
  have hwid : w.id ≠ wid := by simpa using List.of_mem_filter hw'
  constructor
  · rw [h1]
    exact hwid
  · intro hnd t ht htw heq
    have ht'mem : t' ∈ st.trucks := List.mem_of_mem_filter ht'
    have ht'w : t'.warehouseId = w.id := by simpa using List.of_mem_filter ht'
    have htt : t' = t := List.inj_on_of_nodup_map hnd ht'mem ht (by rw [hid', heq])
    rw [htt] at ht'w
    exact hwid (ht'w.symm.trans htw)

/-- Witness for C10 at the concrete example state: deleting `w2` leaves
trucks and routes untouched, and the route then generated has neither the
deleted depot nor the deleted depot's truck. -/
theorem c10_witness :
    (deleteWarehouse stEx "w2").trucks = stEx.trucks ∧
    (deleteWarehouse stEx "w2").routes = stEx.routes ∧
    rC10 ∈ (generateRoutes distEx (deleteWarehouse stEx "w2") idsEx "now").routes ∧
    rC10.warehouseId ≠ "w2" ∧ rC10.truckId ≠ tEx3.id := by
  have hmem : rC10 ∈ (generateRoutes distEx (deleteWarehouse stEx "w2") idsEx "now").routes := by
    with_unfolding_all decide
  obtain ⟨h1, _, h3, _, h5⟩ := c10_deleteWarehouse_frame stEx "w2"
  obtain ⟨ha, hb⟩ := h5 distEx idsEx "now" rC10 hmem
  exact ⟨h1, h3, hmem, ha, hb (by with_unfolding_all decide) tEx3 (by with_unfolding_all decide) (by with_unfolding_all decide)⟩

/-- C1: in every `generateRoutes` cycle, for every warehouse that has at
least one truck, every store of the full global store set is paired with its
distance and distributed over that warehouse's trucks, so it lands on some
route of that warehouse; consequently, with two or more staffed warehouses
the same store simultaneously appears on routes of each of them. -/
theorem c1_global_stores_per_depot (dist : Location → Location → ℚ) (st : DataState)
    (ids : Nat → String) (now : String) :
    (∀ w ∈ st.warehouses, depotRoster st.trucks w ≠ [] →
      ∀ s ∈ st.stores, ∃ r ∈ (generateRoutes dist st ids now).routes,
        r.warehouseId = w.id ∧ s.id ∈ r.stores) ∧
    (∀ w1 ∈ st.warehouses, ∀ w2 ∈ st.warehouses,
      depotRoster st.trucks w1 ≠ [] → depotRoster st.trucks w2 ≠ [] →
      ∀ s ∈ st.stores, ∃ r1 ∈ (generateRoutes dist st ids now).routes,
        ∃ r2 ∈ (generateRoutes dist st ids now).routes,
          r1.warehouseId = w1.id ∧ r2.warehouseId = w2.id ∧
          s.id ∈ r1.stores ∧ s.id ∈ r2.stores) := by
  have main : ∀ w ∈ st.warehouses, depotRoster st.trucks w ≠ [] →
      ∀ s ∈ st.stores, ∃ r ∈ (generateRoutes dist st ids now).routes,
        r.warehouseId = w.id ∧ s.id ∈ r.stores := by
    intro w hw hne s hs
    obtain ⟨c, hc, hcw, hcs⟩ := store_assigned dist st.stores st.trucks w s hs hne
    have hcore : c ∈ genRoutesCore dist st.warehouses st.stores st.trucks :=
      List.mem_flatMap.mpr ⟨w, hw, hc⟩
    rcases mem_attachIds_of_mem hcore ids now 0 with ⟨k, hk⟩
    refine ⟨c.toRoute (ids k) now, ?_, hcw, hcs⟩
    rw [generateRoutes_routes]
    exact hk
  refine ⟨main, ?_⟩
  intro w1 hw1 w2 hw2 hne1 hne2 s hs
  obtain ⟨r1, hr1, h1, hs1⟩ := main w1 hw1 hne1 s hs
  obtain ⟨r2, hr2, h2, hs2⟩ := main w2 hw2 hne2 s hs
  exact ⟨r1, hr1, r2, hr2, h1, h2, hs1, hs2⟩

/-- Witness for C1 at the concrete example state: store `s1` appears
simultaneously on a route of warehouse `w1` and on a route of warehouse
`w2`. -/
theorem c1_witness :
    ∃ r1 ∈ (generateRoutes distEx stEx idsEx "now").routes,
      ∃ r2 ∈ (generateRoutes distEx stEx idsEx "now").routes,
        r1.warehouseId = wEx1.id ∧ r2.warehouseId = wEx2.id ∧
        sEx1.id ∈ r1.stores ∧ sEx1.id ∈ r2.stores :=
  (c1_global_stores_per_depot distEx stEx idsEx "now").2 wEx1
    (by with_unfolding_all decide) wEx2 (by with_unfolding_all decide)
    (by with_unfolding_all decide) (by with_unfolding_all decide) sEx1
    (by with_unfolding_all decide)

/-- C2: within one depot, the destination list is sorted ascending by
distance from the depot — a stable sort: the sorted list is pairwise
ascending, and for each fixed distance value the sublist with that distance
is kept verbatim in input order — and the i-th sorted destination (0-based)
is assigned to the vehicle at index `i mod M` of the roster (the trucks with
this depot's identifier in input order): vehicle `j`'s assignment list is
exactly the ids of the sorted destinations at indices congruent to `j`. -/
theorem c2_sort_and_round_robin (dist : Location → Location → ℚ) (stores : List Store)
    (trucks : List Truck) (w : Warehouse) (t0 : Truck)
    (hnd : ((depotRoster trucks w).map (fun t => t.id)).Nodup) :
    (depotSorted dist stores w).Pairwise (fun a b => a.2 ≤ b.2) ∧
    (∀ d : ℚ, (depotSorted dist stores w).filter (fun p => p.2 = d)
      = (storesWithDistance dist stores w).filter (fun p => p.2 = d)) ∧
    (∀ j, j < (depotRoster trucks w).length →
      recordGet (depotAssignments dist stores trucks w t0)
          (((depotRoster trucks w).getD j t0).id)
        = some (((withIdx 0 (depotSorted dist stores w)).filter
            (fun p => p.1 % (depotRoster trucks w).length = j)).map (fun p => p.2.1.id))) :=
  ⟨sortByDist_sorted _, fun d => sortByDist_filter _ d,
   fun j hj => depotAssignments_get_at dist stores trucks w t0 hnd hj⟩

/-- Witness for C2 at the concrete example state (warehouse `w1`, roster
`[t1, t2]`). -/
theorem c2_witness :
    ((depotRoster stEx.trucks wEx1).map (fun t => t.id)).Nodup ∧
    (depotSorted distEx stEx.stores wEx1).Pairwise (fun a b => a.2 ≤ b.2) ∧
    recordGet (depotAssignments distEx stEx.stores stEx.trucks wEx1 tEx1)
        (((depotRoster stEx.trucks wEx1).getD 0 tEx1).id)
      = some (((withIdx 0 (depotSorted distEx stEx.stores wEx1)).filter
          (fun p => p.1 % (depotRoster stEx.trucks wEx1).length = 0)).map
            (fun p => p.2.1.id)) := by
  have h := c2_sort_and_round_robin distEx stEx.stores stEx.trucks wEx1 tEx1
    (by with_unfolding_all decide)
  exact ⟨by with_unfolding_all decide, h.1, h.2.2 0 (by with_unfolding_all decide)⟩

/-- C3: for a depot with M trucks and N stores, M ≤ N, after the round-robin
partition the per-vehicle assigned-destination counts sum to N and no two
vehicles' counts differ by more than 1. -/
theorem c3_balanced_partition (dist : Location → Location → ℚ) (stores : List Store)
    (trucks : List Truck) (w : Warehouse) (t0 : Truck)
    (hne : depotRoster trucks w ≠ [])
    (hnd : ((depotRoster trucks w).map (fun t => t.id)).Nodup)
    (hMN : (depotRoster trucks w).length ≤ stores.length) :
    ((List.range (depotRoster trucks w).length).map (fun j =>
        ((recordGet (depotAssignments dist stores trucks w t0)
          (((depotRoster trucks w).getD j t0).id)).getD []).length)).sum = stores.length ∧
    ∀ j, j < (depotRoster trucks w).length → ∀ j', j' < (depotRoster trucks w).length →
      ((recordGet (depotAssignments dist stores trucks w t0)
          (((depotRoster trucks w).getD j t0).id)).getD []).length
        ≤ ((recordGet (depotAssignments dist stores trucks w t0)
          (((depotRoster trucks w).getD j' t0).id)).getD []).length + 1 := by
  have hM : 0 < (depotRoster trucks w).length := List.length_pos.mpr hne
  have hcnt : ∀ j, j < (depotRoster trucks w).length →
      ((recordGet (depotAssignments dist stores trucks w t0)
        (((depotRoster trucks w).getD j t0).id)).getD []).length
      = stores.length / (depotRoster trucks w).length
        + if j < stores.length % (depotRoster trucks w).length then 1 else 0 := by
    intro j hj
    rw [depotAssignments_get_at dist stores trucks w t0 hnd hj, Option.getD_some]
    exact depotAssignments_count dist stores trucks w hj
  constructor
  · rw [List.map_congr_left (fun j hj => hcnt j (List.mem_range.mp hj)),
      sum_range_div_add_ite]
    have hr : stores.length % (depotRoster trucks w).length
        < (depotRoster trucks w).length := Nat.mod_lt _ hM
    have hdm := Nat.div_add_mod stores.length (depotRoster trucks w).length
    omega
  · intro j hj j' hj'
    rw [hcnt j hj, hcnt j' hj']
    split_ifs <;> omega

/-- Witness for C3 at the concrete example state: warehouse `w1` has 2
trucks and 3 stores; the per-truck counts sum to 3. -/
theorem c3_witness :
    depotRoster stEx.trucks wEx1 ≠ [] ∧
    (depotRoster stEx.trucks wEx1).length ≤ stEx.stores.length ∧
    ((List.range (depotRoster stEx.trucks wEx1).length).map (fun j =>
        ((recordGet (depotAssignments distEx stEx.stores stEx.trucks wEx1 tEx1)
          (((depotRoster stEx.trucks wEx1).getD j tEx1).id)).getD []).length)).sum
      = stEx.stores.length := by
  refine ⟨by with_unfolding_all decide, by with_unfolding_all decide, ?_⟩
  exact (c3_balanced_partition distEx stEx.stores stEx.trucks wEx1 tEx1
    (by with_unfolding_all decide) (by with_unfolding_all decide)
    (by with_unfolding_all decide)).1

/-- C6: a generation cycle atomically replaces the whole route collection:
the produced routes do not depend on the prior route collection; with fresh
identifiers no prior route object survives; and for every (warehouse, truck)
pair there is exactly one produced route when the truck belongs to the
warehouse and received at least one destination (its roster position is
below the store count), and none otherwise. -/
theorem c6_atomic_replace (dist : Location → Location → ℚ) (st : DataState)
    (ids : Nat → String) (now : String)
    (hw : (st.warehouses.map (fun x => x.id)).Nodup)
    (ht : (st.trucks.map (fun x => x.id)).Nodup) :
    (generateRoutes dist st ids now).routes
        = (generateRoutes dist { st with routes := [] } ids now).routes ∧
    ((∀ k, k < (genRoutesCore dist st.warehouses st.stores st.trucks).length →
        ids k ∉ st.routes.map (fun x => x.id)) →
      ∀ r ∈ (generateRoutes dist st ids now).routes, r ∉ st.routes) ∧
    (∀ w ∈ st.warehouses, ∀ t ∈ st.trucks,
      (generateRoutes dist st ids now).routes.countP
          (fun r => decide (r.warehouseId = w.id) && decide (r.truckId = t.id))
        = if t.warehouseId = w.id ∧ (depotRoster st.trucks w).indexOf t < st.stores.length
          then 1 else 0) := by
  refine ⟨rfl, ?_, ?_⟩
  · intro hfresh r hr hmem
    rw [generateRoutes_routes] at hr
    rcases mem_attachIds hr with ⟨c, hc, k, hk0, hklt, rfl⟩
    refine hfresh k (by simpa using hklt) ?_
    exact List.mem_map.mpr ⟨c.toRoute (ids k) now, hmem, rfl⟩
  · intro w hwmem t htmem
    rw [generateRoutes_routes,
      attachIds_countP (fun r => decide (r.warehouseId = w.id) && decide (r.truckId = t.id))
        (fun c => decide (c.warehouseId = w.id) && decide (c.truckId = t.id))
        (fun c rid now' => rfl) ids now 0 _,
      genRoutesCore, countP_flatMap]
    have hz : ∀ w' ∈ st.warehouses, w'.id ≠ w.id →
        (processWarehouse dist st.stores st.trucks w').countP
          (fun c => decide (c.warehouseId = w.id) && decide (c.truckId = t.id)) = 0 :=
      fun w' _ hne => processWarehouse_countP_other dist st.stores st.trucks hne t.id
    rw [map_sum_single _ st.warehouses hw hwmem hz]
    exact processWarehouse_countP_self dist st.stores st.trucks w t ht htmem

/-- Witness for C6 at the concrete example state: the prior route `old` is
gone, truck `t1` of warehouse `w1` has exactly one route and `t3` (another
depot's truck) has none with `w1`. -/
theorem c6_witness :
    ((stEx.warehouses.map (fun x => x.id)).Nodup ∧
      (stEx.trucks.map (fun x => x.id)).Nodup) ∧
    (∀ r ∈ (generateRoutes distEx stEx idsEx "now").routes, r ∉ stEx.routes) ∧
    (generateRoutes distEx stEx idsEx "now").routes.countP
        (fun r => decide (r.warehouseId = wEx1.id) && decide (r.truckId = tEx1.id)) = 1 ∧
    (generateRoutes distEx stEx idsEx "now").routes.countP
        (fun r => decide (r.warehouseId = wEx1.id) && decide (r.truckId = tEx3.id)) = 0 := by
  have h := c6_atomic_replace distEx stEx idsEx "now"
    (by with_unfolding_all decide) (by with_unfolding_all decide)
  refine ⟨⟨by with_unfolding_all decide, by with_unfolding_all decide⟩,
    h.2.1 (by with_unfolding_all decide), ?_, ?_⟩
  · rw [h.2.2 wEx1 (by with_unfolding_all decide) tEx1 (by with_unfolding_all decide)]
    with_unfolding_all decide
  · rw [h.2.2 wEx1 (by with_unfolding_all decide) tEx3 (by with_unfolding_all decide)]
    with_unfolding_all decide

/-- C9 counterexample: `updateRoute` applied with a patch whose `id` field is
present can duplicate an existing identifier: renaming route `a` to `b` in a
state that already has a route `b` leaves two routes with identifier `b`,
so identifier distinctness is not preserved by every operation. -/
theorem c9_counterexample :
    ¬ (((updateRoute stAB "a" ⟨some "b", none, none, none, none, none, none⟩).routes.map
        (fun r => r.id)).Nodup) := by
  with_unfolding_all decide

/-- C9 amended: identifier distinctness is preserved by `deleteRoute`
always; by `updateRoute` when the patch does not set the `id` field; by
`addRoute` when the generated identifier is not already present; and by
`generateRoutes` when the freshly generated identifiers are pairwise
distinct.  (A patch that sets `id` to an existing identifier, or an
`addRoute`/`generateRoutes` identifier collision, can break it.) -/
theorem c9_id_uniqueness (st : DataState) (rid newId : String) (d : RoutePatch)
    (r : Route) (dist : Location → Location → ℚ) (ids : Nat → String) (now : String)
    (h : (st.routes.map (fun x => x.id)).Nodup) :
    ((deleteRoute st rid).routes.map (fun x => x.id)).Nodup ∧
    (d.id = none → ((updateRoute st rid d).routes.map (fun x => x.id)).Nodup) ∧
    (newId ∉ st.routes.map (fun x => x.id) →
      ((addRoute st newId r).routes.map (fun x => x.id)).Nodup) ∧
    (((List.range (genRoutesCore dist st.warehouses st.stores st.trucks).length).map ids).Nodup →
      ((generateRoutes dist st ids now).routes.map (fun x => x.id)).Nodup) := by
  refine ⟨?_, ?_, ?_, ?_⟩
  · exact h.sublist (List.Sublist.map (fun (x : Route) => x.id) (List.filter_sublist st.routes))
  · intro hd
    have heq : (updateRoute st rid d).routes.map (fun x => x.id)
        = st.routes.map (fun x => x.id) := by
      show (st.routes.map (fun x => if x.id = rid then applyPatch x d else x)).map
          (fun x => x.id) = st.routes.map (fun x => x.id)
      rw [List.map_map]
      apply List.map_congr_left
      intro x _
      by_cases hx : x.id = rid
      · simp [Function.comp, hx, applyPatch, hd]
      · simp [Function.comp, hx]
    rw [heq]
    exact h
  · intro hnew
    show ((st.routes ++ [{ r with id := newId }]).map (fun (x : Route) => x.id)).Nodup
    rw [List.map_append, List.nodup_append]
    refine ⟨h, by simp, ?_⟩
    intro a ha hb
    simp at hb
    rw [hb] at ha
    exact hnew ha
  · intro hgen
    have heq : (generateRoutes dist st ids now).routes.map (fun x => x.id)
        = (List.range (genRoutesCore dist st.warehouses st.stores st.trucks).length).map
            ids := by
      rw [generateRoutes_routes, attachIds_map_id]
      apply List.map_congr_left
      intro k _
      simp
    rw [heq]
    exact hgen

/-- Witness for the amended C9 at concrete inputs: all four preserved
cases, by applying the amended theorem. -/
theorem c9_witness :
    ((deleteRoute stAB "a").routes.map (fun x => x.id)).Nodup ∧
    ((updateRoute stAB "a" emptyPatch).routes.map (fun x => x.id)).Nodup ∧
    ((addRoute stAB "c" rOld).routes.map (fun x => x.id)).Nodup ∧
    ((generateRoutes distEx stEx idsEx "now").routes.map (fun x => x.id)).Nodup := by
  obtain ⟨h1, h2, h3, _⟩ := c9_id_uniqueness stAB "a" "c" emptyPatch rOld distEx idsEx "now"
    (by with_unfolding_all decide)
  obtain ⟨_, _, _, h4⟩ := c9_id_uniqueness stEx "a" "c" emptyPatch rOld distEx idsEx "now"
    (by with_unfolding_all decide)
  exact ⟨h1, h2 (by with_unfolding_all decide), h3 (by with_unfolding_all decide),
    h4 (by with_unfolding_all decide)⟩

end RouteOpt
